import Mathlib

/-!
Formal model of the article-generator repository.

The development shallowly embeds the TypeScript sources:

* `src/app/lib/clientStorage.ts` — the slug utility (`createSlug`) and the
  local-storage persistence backend (`getClientArticles`,
  `getClientArticleBySlug`, `updateClientArticle`, `deleteClientArticle`).
* `src/app/components/ArticleGenerator.tsx` — the step-by-step generation
  workflow (`completeArticle`, `generateH2Content`, `generateAllH2Contents`).

Strings are modelled as `List Char`.  `String.prototype.toLowerCase` is
modelled on the ASCII range (`Char.toLower`): the regex class `\w` is
ASCII-only, so every character outside ASCII is removed by the strip stage
regardless of case.  Browser storage is modelled as an explicit state value;
the remote generation API is an oracle function supplied as a parameter, and
each workflow operation is a state transformer that also reports the calls it
issued.
-/

namespace ArticleGen

/-! ## Slug utility — clientStorage.ts, createSlug -/

/-- Membership of the JavaScript regex class `\w` (ASCII letters, digits and
underscore). -/
def isWordChar (c : Char) : Bool :=
  (('a' ≤ c && c ≤ 'z') || ('A' ≤ c && c ≤ 'Z') || ('0' ≤ c && c ≤ '9') || c == '_')

/-- Membership of the JavaScript regex class `\s` (Unicode whitespace as
matched by JS regexes). -/
def isJsSpace (c : Char) : Bool :=
  (c == ' ' || c == '\t' || c == '\n' || c == '\r' ||
   c.toNat == 0x0b || c.toNat == 0x0c || c.toNat == 0xa0 ||
   c.toNat == 0x1680 || (0x2000 ≤ c.toNat && c.toNat ≤ 0x200a) ||
   c.toNat == 0x2028 || c.toNat == 0x2029 || c.toNat == 0x202f ||
   c.toNat == 0x205f || c.toNat == 0x3000 || c.toNat == 0xfeff)

/-- Characters kept by `replace(/[^\w\s-]/g, "")`. -/
def isKept (c : Char) : Bool :=
  isWordChar c || isJsSpace c || c == '-'

/-- Characters matched by the run-collapsing class `[\s_-]`. -/
def isCollapsible (c : Char) : Bool :=
  isJsSpace c || c == '_' || c == '-'

/-- Worker for the run-collapsing replace.  The flag records whether the
previous character belonged to a `[\s_-]` run (whose single output hyphen has
already been emitted). -/
def collapseAux : Bool → List Char → List Char
  | _, [] => []
  | inRun, c :: rest =>
    if isCollapsible c then
      if inRun then collapseAux true rest else '-' :: collapseAux true rest
    else c :: collapseAux false rest

/-- Model of `replace(/[\s_-]+/g, "-")`: each maximal run of whitespace,
underscores and hyphens becomes a single hyphen. -/
def collapseRuns (l : List Char) : List Char :=
  collapseAux false l

/-- Model of `replace(/^-+|-+$/g, "")`: remove the leading and the trailing
run of hyphens. -/
def trimHyphens (l : List Char) : List Char :=
  ((l.dropWhile (fun c => c == '-')).reverse.dropWhile (fun c => c == '-')).reverse

/-- Embedding of `createSlug` (clientStorage.ts lines 30-36): lowercase, strip
characters outside `[\w\s-]`, collapse `[\s_-]` runs to one hyphen, trim edge
hyphens. -/
def createSlug (title : List Char) : List Char :=
  trimHyphens (collapseRuns ((title.map Char.toLower).filter isKept))

/-- String-level wrapper of `createSlug`. -/
def createSlugStr (title : String) : String :=
  ⟨createSlug title.data⟩

/-- Modelled from the spec wording of claim C6 (spec 4.1): characters kept by
the strip stage are only `a-z`, `0-9`, whitespace and hyphen — in particular,
underscores are stripped. -/
def isKeptSpec (c : Char) : Bool :=
  ('a' ≤ c && c ≤ 'z') || ('0' ≤ c && c ≤ '9') || isJsSpace c || c == '-'

/-- Modelled from the spec wording of claim C6 (spec 4.1): lowercase; strip
every character that is not a-z, 0-9, whitespace, or hyphen; collapse runs of
whitespace/underscore/hyphen into a single hyphen; trim edge hyphens. -/
def slugifySpec (title : List Char) : List Char :=
  trimHyphens (collapseRuns ((title.map Char.toLower).filter isKeptSpec))

/-- Amended strip stage: the source keeps every `\w` character, so underscores
(and pre-lowercasing capitals) survive the strip and are handled by the
run-collapsing stage instead. -/
def slugifyAmended (title : List Char) : List Char :=
  trimHyphens (collapseRuns ((title.map Char.toLower).filter isKept))

/-! ## Local-storage persistence backend — clientStorage.ts -/

/-- Record shape stored by the client backend (`ClientArticleMetadata`). -/
structure ClientArticleMetadata where
  title : String
  slug : String
  topic : String
  keywords : List String
  tone : String
  wordCount : Int
  readabilityScore : Int
  seoScore : Option Int
  createdAt : String
  updatedAt : String
  content : String
  metaDescription : String
  deriving DecidableEq

/-- Summary shape returned by `getClientArticles` (`ClientArticleListItem`). -/
structure ClientArticleListItem where
  title : String
  slug : String
  topic : String
  wordCount : Int
  readabilityScore : Int
  seoScore : Option Int
  createdAt : String
  metaDescription : String
  deriving DecidableEq

/-- State of the browser storage key `seo-articles`: the key may be absent,
may hold a value on which parsing-and-traversing throws (caught by every
operation), or may hold a serialized article collection. -/
inductive StorageState where
  | absent : StorageState
  | corrupt : StorageState
  | valid : List ClientArticleMetadata → StorageState
  deriving DecidableEq

/-- Projection used by `getClientArticles` to build a list item. -/
def toListItem (a : ClientArticleMetadata) : ClientArticleListItem :=
  { title := a.title, slug := a.slug, topic := a.topic,
    wordCount := a.wordCount, readabilityScore := a.readabilityScore,
    seoScore := a.seoScore, createdAt := a.createdAt,
    metaDescription := a.metaDescription }

/-- Embedding of `getClientArticles` (lines 42-64).  `dateVal` models
`new Date(s).getTime()`; the comparator sorts descending by creation date.
An absent key or a throwing parse yields the empty list. -/
def getClientArticles (dateVal : String → Int) : StorageState → List ClientArticleListItem
  | StorageState.absent => []
  | StorageState.corrupt => []
  | StorageState.valid articles =>
    (articles.map toListItem).mergeSort
      (fun a b => dateVal b.createdAt ≤ dateVal a.createdAt)

/-- Embedding of `getClientArticleBySlug` (lines 67-78): first record whose
slug matches, `none` when the key is absent or parsing throws. -/
def getClientArticleBySlug (slug : String) : StorageState → Option ClientArticleMetadata
  | StorageState.absent => none
  | StorageState.corrupt => none
  | StorageState.valid articles => articles.find? (fun a => a.slug == slug)

/-- Partial update accepted by `updateClientArticle`. -/
structure ArticleUpdates where
  content : Option String
  title : Option String
  metaDescription : Option String
  deriving DecidableEq

/-- Object-spread merge `{...article, ...updates, updatedAt: now}`. -/
def applyUpdates (a : ClientArticleMetadata) (u : ArticleUpdates) (now : String) :
    ClientArticleMetadata :=
  { a with
    content := u.content.getD a.content,
    title := u.title.getD a.title,
    metaDescription := u.metaDescription.getD a.metaDescription,
    updatedAt := now }

/-- Embedding of `updateClientArticle` (lines 127-152).  `now` models
`new Date().toISOString()`.  Returns the success flag together with the
storage state after the call.  `List.findIdx` returns the list length when no
record matches, mirroring the `findIndex` / `index < 0` check. -/
def updateClientArticle (now : String) (slug : String) (u : ArticleUpdates) :
    StorageState → Bool × StorageState
  | StorageState.absent => (false, StorageState.absent)
  | StorageState.corrupt => (false, StorageState.corrupt)
  | StorageState.valid articles =>
    let idx := articles.findIdx (fun a => a.slug == slug)
    if h : idx < articles.length then
      (true, StorageState.valid (articles.set idx (applyUpdates (articles.get ⟨idx, h⟩) u now)))
    else
      (false, StorageState.valid articles)

/-- Embedding of `deleteClientArticle` (lines 155-169): filters out every
record with the given slug and reports success whenever the stored collection
was readable, regardless of whether the slug was present. -/
def deleteClientArticle (slug : String) : StorageState → Bool × StorageState
  | StorageState.absent => (false, StorageState.absent)
  | StorageState.corrupt => (false, StorageState.corrupt)
  | StorageState.valid articles =>
    (true, StorageState.valid (articles.filter (fun a => !(a.slug == slug))))

/-! ## Step-by-step generation workflow — ArticleGenerator.tsx

The component state relevant to the claims is collected in `SessionState`.
The React state setters of the source always act through pure functional
updates, so each handler is embedded as a state transformer.  The remote call
`articleAPI.generateH2Content` is an oracle: for the bulk loop it is a
function from the section index to a result, for the single-section handler
the one result of the one call is passed directly.  Each transformer also
returns the generation calls it issued (`List Nat` of section indices for the
bulk loop, a `Bool` for the single-section handler).  The `finally` blocks of
the source restore the in-flight ref/state flags, so the returned state keeps
the caller's flag values; a state in which a call is in flight is exactly a
state whose `generationInProgressRef` flag is `true`. -/

/-- Response of the section-content endpoint (`H2ContentResponse`). -/
structure GenResult where
  generated_content : String
  word_count : Nat
  deriving DecidableEq

/-- The `seo_content` payload of the headings response. -/
structure SEOContent where
  h1_heading : String
  h2_headings : List String
  meta_description : String
  slug : String
  deriving DecidableEq

/-- Response of the headings endpoint (`HeadingsGenerationResponse`). -/
structure HeadingsGenerationResponse where
  seo_content : SEOContent
  deriving DecidableEq

/-- Per-section client state (`H2ContentData`). -/
structure H2ContentData where
  heading : String
  content : String
  wordCount : Nat
  isGenerated : Bool
  isGenerating : Bool
  error : Option String
  deriving DecidableEq

/-- The wizard phase (`generationStep`). -/
inductive GenerationStep where
  | setup : GenerationStep
  | headings : GenerationStep
  | content : GenerationStep
  deriving DecidableEq

/-- The component state touched by the generation handlers. -/
structure SessionState where
  headingsResponse : Option HeadingsGenerationResponse
  h2Contents : List H2ContentData
  error : Option String
  generationInProgressRef : Bool
  isGeneratingAllRef : Bool
  isGeneratingAll : Bool
  generationStep : GenerationStep
  deriving DecidableEq

/-- Spec-side section status, derived from the source's two booleans and the
error field: a section is `generating` while a call for it is in flight,
`failed` when it carries an error message, `generated` once content has been
stored for it, and `pending` otherwise. -/
inductive SectionStatus where
  | pending : SectionStatus
  | generating : SectionStatus
  | generated : SectionStatus
  | failed : SectionStatus
  deriving DecidableEq

/-- Status abstraction for one section. -/
def sectionStatus (h2 : H2ContentData) : SectionStatus :=
  if h2.isGenerating then SectionStatus.generating
  else if h2.error.isSome then SectionStatus.failed
  else if h2.isGenerated then SectionStatus.generated
  else SectionStatus.pending

/-- Embedding of `setH2Contents(prev => prev.map((h2, idx) => idx === i ? f(h2) : h2))`:
apply `f` at position `i`, leave every other entry unchanged. -/
def updSection (f : H2ContentData → H2ContentData) : Nat → List H2ContentData → List H2ContentData
  | _, [] => []
  | 0, h :: t => f h :: t
  | Nat.succ n, h :: t => h :: updSection f n t

/-- Update `{...h2, isGenerating: true, error: undefined}`. -/
def markGenerating (h2 : H2ContentData) : H2ContentData :=
  { h2 with isGenerating := true, error := none }

/-- Update applied on a successful response: store content and word count,
set `isGenerated`, clear `isGenerating`. -/
def applyResult (r : GenResult) (h2 : H2ContentData) : H2ContentData :=
  { h2 with
    content := r.generated_content,
    wordCount := r.word_count,
    isGenerated := true,
    isGenerating := false }

/-- Update `{...h2, isGenerating: false, error: errorMessage}`. -/
def markFailed (msg : String) (h2 : H2ContentData) : H2ContentData :=
  { h2 with isGenerating := false, error := some msg }

/-- Embedding of the `completeArticle` memo (lines 76-87): empty without a
headings response, otherwise the H1 line followed by one block per section
that is generated and has truthy (non-empty) content, joined by blank lines
(`Array.prototype.join`). -/
def joinSep (sep : String) : List String → String
  | [] => ""
  | [x] => x
  | x :: y :: rest => x ++ sep ++ joinSep sep (y :: rest)

/-- Rendering of one section as `"## {heading}\n\n{content}"`. -/
def renderBlock (h2 : H2ContentData) : String :=
  "## " ++ h2.heading ++ "\n\n" ++ h2.content

/-- The assembled article (`completeArticle`). -/
def completeArticle (s : SessionState) : String :=
  match s.headingsResponse with
  | none => ""
  | some hr =>
    joinSep "\n\n"
      (("# " ++ hr.seo_content.h1_heading) ::
        (s.h2Contents.filter (fun h2 => h2.isGenerated && !(h2.content == ""))).map renderBlock)

/-- Modelled from the spec wording of claim C1 (spec 4.3, `assembleArticle`):
the H1 line, then one `"## {heading}\n\n{content}"` block for every section
with status `generated`, in index order, each appended after a blank line. -/
def assembleArticleSpec (h1 : String) (sections : List H2ContentData) : String :=
  ((sections.filter (fun h2 => sectionStatus h2 == SectionStatus.generated)).map
      renderBlock).foldl (fun acc b => acc ++ "\n\n" ++ b) ("# " ++ h1)

/-- Amended assembly (claim C1): as `assembleArticleSpec`, but the block
criterion is not the four-valued status.  A block is emitted exactly for the
sections that have completed a successful generation at some point (the
source's `isGenerated` flag, i.e. content and word count have been stored)
and whose stored content is non-empty.  In particular a generated section
with empty content emits no block, while a section whose latest regeneration
attempt failed (`error` set, so its status is `failed`, but `isGenerated`
still set) keeps emitting its last successful content. -/
def assembleArticleAmended (h1 : String) (sections : List H2ContentData) : String :=
  ((sections.filter (fun h2 => h2.isGenerated && !(h2.content == ""))).map
      renderBlock).foldl (fun acc b => acc ++ "\n\n" ++ b) ("# " ++ h1)

/-- Error message set when the `currentHeadings!` non-null assertion is
violated at run time (reading `seo_content` of `null` throws). -/
def nullHeadingsMsg : String :=
  "Cannot read properties of null (reading 'seo_content')"

/-- Error message set when `currentH2Contents[h2Index]` is `undefined`
(reading `heading` of `undefined` throws). -/
def oobIndexMsg : String :=
  "Cannot read properties of undefined (reading 'heading')"

/-- Message set by the bulk handler's catch block (line 380). -/
def bulkFailureMsg : String :=
  "Failed to generate all content. Please try again."

/-- Embedding of `generateH2Content` (lines 206-275).  `api` is the outcome
of the one remote call this handler can issue; the returned `Bool` records
whether that call was issued.  The in-flight guard (line 207) rejects the
invocation outright while another generation call is in flight. -/
def generateH2Content (api : Except String GenResult) (i : Nat) (s : SessionState) :
    SessionState × Bool :=
  if s.generationInProgressRef then (s, false)
  else
    let s0 : SessionState :=
      { s with error := none, h2Contents := updSection markGenerating i s.h2Contents }
    match s.headingsResponse with
    | none =>
      ({ s0 with
          error := some nullHeadingsMsg,
          h2Contents := updSection (markFailed nullHeadingsMsg) i s0.h2Contents }, false)
    | some _ =>
      if i < s.h2Contents.length then
        match api with
        | Except.ok r =>
          ({ s0 with h2Contents := updSection (applyResult r) i s0.h2Contents }, true)
        | Except.error msg =>
          ({ s0 with
              error := some msg,
              h2Contents := updSection (markFailed msg) i s0.h2Contents }, true)
      else
        ({ s0 with
            error := some oobIndexMsg,
            h2Contents := updSection (markFailed oobIndexMsg) i s0.h2Contents }, false)

/-- Embedding of the `for` loop of `generateAllH2Contents` (lines 309-375).
`fuel` counts the remaining loop iterations (`cur.length - i` at entry), `i`
is the loop index, `cur` the local snapshot array the loop reads and mutates,
`live` the React state.  Returns the final React state, the indices for which
a generation call was issued (in call order), and whether the loop ran to
completion (`false` when a call failed and the loop aborted by rethrowing). -/
def loopAll (api : Nat → Except String GenResult) :
    Nat → Nat → List H2ContentData → List H2ContentData →
    List H2ContentData × List Nat × Bool
  | 0, _, _, live => (live, [], true)
  | Nat.succ fuel, i, cur, live =>
    match cur.get? i with
    | none => (live, [], true)
    | some entry =>
      if entry.isGenerated then loopAll api fuel (i + 1) cur live
      else
        let live1 := updSection markGenerating i live
        match api i with
        | Except.ok r =>
          let rest :=
            loopAll api fuel (i + 1) (updSection (applyResult r) i cur)
              (updSection (applyResult r) i live1)
          (rest.1, i :: rest.2.1, rest.2.2)
        | Except.error msg =>
          (updSection (markFailed msg) i live1, [i], false)

/-- Embedding of `generateAllH2Contents` (lines 277-386).  `api` maps a
section index to the outcome of the remote call for that section.  Returns
the state after the handler and the indices called.  The three-flag guard
(lines 278-284) rejects re-entrant invocations; a missing headings response
throws before the loop and lands in the catch block; if every section is
already generated the handler returns before the loop (lines 304-307). -/
def generateAllH2Contents (api : Nat → Except String GenResult) (s : SessionState) :
    SessionState × List Nat :=
  if s.isGeneratingAllRef || s.isGeneratingAll || s.generationInProgressRef then (s, [])
  else
    match s.headingsResponse with
    | none => ({ s with error := some bulkFailureMsg }, [])
    | some _ =>
      if s.h2Contents.all (fun h2 => h2.isGenerated) then
        ({ s with generationStep := GenerationStep.content }, [])
      else
        let r := loopAll api s.h2Contents.length 0 s.h2Contents s.h2Contents
        if r.2.2 then
          ({ s with h2Contents := r.1, generationStep := GenerationStep.content }, r.2.1)
        else
          ({ s with h2Contents := r.1, error := some bulkFailureMsg }, r.2.1)

/-! ## Helper lemmas about `updSection` -/

theorem updSection_length (f : H2ContentData → H2ContentData) :
    ∀ (i : Nat) (l : List H2ContentData), (updSection f i l).length = l.length := by
  intro i l
  induction l generalizing i with
  | nil => cases i <;> rfl
  | cons h t ih => cases i with
    | zero => rfl
    | succ n => simpa [updSection] using ih n

theorem get?_updSection_self (f : H2ContentData → H2ContentData) :
    ∀ (i : Nat) (l : List H2ContentData), (updSection f i l).get? i = (l.get? i).map f := by
  intro i l
  induction l generalizing i with
  | nil => cases i <;> rfl
  | cons h t ih => cases i with
    | zero => rfl
    | succ n => simpa [updSection] using ih n

theorem get?_updSection_other (f : H2ContentData → H2ContentData) :
    ∀ (i j : Nat) (l : List H2ContentData), j ≠ i →
      (updSection f i l).get? j = l.get? j := by
  intro i j l
  induction l generalizing i j with
  | nil => intro _; cases i <;> rfl
  | cons h t ih =>
    intro hne
    cases i with
    | zero =>
      cases j with
      | zero => exact absurd rfl hne
      | succ m => rfl
    | succ n =>
      cases j with
      | zero => rfl
      | succ m => simpa [updSection] using ih n m (by omega)

/-! ## Concrete fixtures used by witnesses and counterexamples -/

/-- A section that has already been generated. -/
def secDone : H2ContentData :=
  { heading := "done", content := "text", wordCount := 1,
    isGenerated := true, isGenerating := false, error := none }

/-- A section still pending. -/
def secPending : H2ContentData :=
  { heading := "todo", content := "", wordCount := 0,
    isGenerated := false, isGenerating := false, error := none }

/-- A headings response fixture. -/
def hrFix : HeadingsGenerationResponse :=
  { seo_content :=
    { h1_heading := "T", h2_headings := ["done", "todo"],
      meta_description := "m", slug := "t" } }

/-- A quiescent session with one generated and one pending section. -/
def sessFix : SessionState :=
  { headingsResponse := some hrFix,
    h2Contents := [secDone, secPending],
    error := none, generationInProgressRef := false, isGeneratingAllRef := false,
    isGeneratingAll := false, generationStep := GenerationStep.headings }

/-- The session with a call in flight. -/
def sessBusy : SessionState :=
  { sessFix with generationInProgressRef := true }

/-- The session with every section generated. -/
def sessAllDone : SessionState :=
  { sessFix with h2Contents := [secDone, { secDone with heading := "done2" }] }

/-- An oracle that succeeds on every section. -/
def apiAllOk : Nat → Except String GenResult :=
  fun _ => Except.ok { generated_content := "body", word_count := 1 }

/-- A stored article fixture. -/
def artFix : ClientArticleMetadata :=
  { title := "A", slug := "a", topic := "t", keywords := [], tone := "professional",
    wordCount := 10, readabilityScore := 70, seoScore := none,
    createdAt := "2024-01-01", updatedAt := "2024-01-01",
    content := "c", metaDescription := "m" }

/-! ## Claim C5 — single-flight guard -/

/-- C5: while a generation call is in flight (the in-flight flag is set), any
further invocation of the single-section handler or of the bulk handler
returns immediately: the state is unchanged and no generation call is
issued. -/
theorem singleFlight_guard (s : SessionState) (h : s.generationInProgressRef = true) :
    (∀ (api : Except String GenResult) (i : Nat), generateH2Content api i s = (s, false)) ∧
    (∀ (api : Nat → Except String GenResult), generateAllH2Contents api s = (s, [])) := by
  constructor
  · intro api i
    unfold generateH2Content
    simp [h]
  · intro api
    unfold generateAllH2Contents
    simp [h]

/-- Witness for C5 at a concrete busy session. -/
theorem singleFlight_guard_witness :
    generateH2Content (Except.error "late") 1 sessBusy = (sessBusy, false) ∧
    generateAllH2Contents apiAllOk sessBusy = (sessBusy, []) :=
  ⟨(singleFlight_guard sessBusy rfl).1 (Except.error "late") 1,
   (singleFlight_guard sessBusy rfl).2 apiAllOk⟩

/-! ## Claim C8 — update on a missing slug -/

/-- C8: updating a slug that is absent from the stored collection fails (the
adapter reports not-found by returning `false`) and leaves the stored
collection exactly as it was. -/
theorem updateClientArticle_missing_slug (now slug : String) (u : ArticleUpdates)
    (articles : List ClientArticleMetadata)
    (habsent : ∀ a ∈ articles, a.slug ≠ slug) :
    updateClientArticle now slug u (StorageState.valid articles) =
      (false, StorageState.valid articles) := by
  have hidx : articles.findIdx (fun a => a.slug == slug) = articles.length := by
    rw [List.findIdx_eq_length]
    intro a ha
    simpa using habsent a ha
  simp [updateClientArticle, hidx]

/-- Witness for C8: updating slug `b` in a store holding only slug `a`. -/
theorem updateClientArticle_missing_slug_witness :
    updateClientArticle "2024-02-02" "b" ⟨some "new", none, none⟩
        (StorageState.valid [artFix]) =
      (false, StorageState.valid [artFix]) :=
  updateClientArticle_missing_slug "2024-02-02" "b" ⟨some "new", none, none⟩ [artFix]
    (by decide)

/-! ## Claim C9 — delete on a missing slug -/

/-- C9 (code bug): deleting a slug that is absent from a readable stored
collection nevertheless reports success — the source filters the collection
and returns `true` without checking presence, while the spec (and the
sibling file-backend `deleteArticle`, which rejects with "Article not found")
require a not-found failure. -/
theorem deleteClientArticle_missing_slug_succeeds :
    deleteClientArticle "b" (StorageState.valid [artFix]) =
      (true, StorageState.valid [artFix]) := by decide

/-! ## Claim C10 — total reads on absent or unreadable storage -/

/-- C10: on an absent storage key, or on a stored value whose parse (or
traversal) throws, the list operation returns the empty list and the lookup
returns `null`; both catch the failure instead of propagating it (the
embedding is total by construction, mirroring the `try`/`catch` wrappers). -/
theorem clientReads_total_on_bad_state (s : StorageState)
    (h : s = StorageState.absent ∨ s = StorageState.corrupt) :
    ∀ (dateVal : String → Int) (slug : String),
      getClientArticles dateVal s = [] ∧ getClientArticleBySlug slug s = none := by
  rcases h with h | h <;> subst h <;> exact fun _ _ => ⟨rfl, rfl⟩

/-- Witness for C10 at the corrupt storage state. -/
theorem clientReads_total_on_bad_state_witness :
    getClientArticles (fun _ => 0) StorageState.corrupt = [] ∧
    getClientArticleBySlug "a" StorageState.corrupt = none :=
  clientReads_total_on_bad_state StorageState.corrupt (Or.inr rfl) (fun _ => 0) "a"

/-! ## Claim C1 — assembled article -/

theorem foldl_append_pull (sep : String) :
    ∀ (bs : List String) (x a : String),
      x ++ sep ++ bs.foldl (fun acc b => acc ++ sep ++ b) a =
        bs.foldl (fun acc b => acc ++ sep ++ b) (x ++ sep ++ a) := by
  intro bs
  induction bs with
  | nil => intro x a; rfl
  | cons c cs ih =>
    intro x a
    simp only [List.foldl_cons]
    rw [ih]
    congr 1
    simp [String.append_assoc]

theorem joinSep_eq_foldl (sep : String) :
    ∀ (bs : List String) (x : String),
      joinSep sep (x :: bs) = bs.foldl (fun acc b => acc ++ sep ++ b) x := by
  intro bs
  induction bs with
  | nil => intro x; rfl
  | cons b rest ih =>
    intro x
    show x ++ sep ++ joinSep sep (b :: rest) = _
    rw [ih b, List.foldl_cons, foldl_append_pull]

/-- A section in `generated` status whose stored content is the empty
string. -/
def secEmptyGen : H2ContentData :=
  { heading := "a", content := "", wordCount := 0,
    isGenerated := true, isGenerating := false, error := none }

/-- Session exhibiting the first C1 divergence: one section in `generated`
status with empty content. -/
def sessEmptyContent : SessionState :=
  { sessFix with h2Contents := [secEmptyGen] }

/-- A section that was generated successfully and whose later regeneration
attempt failed: `isGenerated` still set, non-empty stale content, `error`
recorded — its four-valued status is `failed`.  Reachable through the
Regenerate button (`generateH2Content` keeps `isGenerated` on failure). -/
def secFailedRegen : H2ContentData :=
  { heading := "b", content := "stale", wordCount := 1,
    isGenerated := true, isGenerating := false, error := some "boom" }

/-- Session exhibiting the second C1 divergence: one section in `failed`
status that still holds previously generated content. -/
def sessFailedRegen : SessionState :=
  { sessFix with h2Contents := [secFailedRegen] }

/-- Counterexample for C1 as stated, in both directions of the block
criterion: (1) a session whose only section is in `generated` status with
empty content — the source's `completeArticle` renders no block (the memo
also tests content truthiness) while the claim's assembly renders one block
per generated section; (2) a session whose only section is in `failed`
status after a failed regeneration but still stores non-empty generated
content — `completeArticle` still renders the stale block while the claim's
assembly renders blocks only for status `generated`. -/
theorem completeArticle_spec_counterexample :
    (sectionStatus secEmptyGen = SectionStatus.generated ∧
     completeArticle sessEmptyContent = "# T" ∧
     assembleArticleSpec "T" sessEmptyContent.h2Contents = "# T\n\n## a\n\n" ∧
     completeArticle sessEmptyContent ≠
       assembleArticleSpec "T" sessEmptyContent.h2Contents) ∧
    (sectionStatus secFailedRegen = SectionStatus.failed ∧
     completeArticle sessFailedRegen = "# T\n\n## b\n\nstale" ∧
     assembleArticleSpec "T" sessFailedRegen.h2Contents = "# T" ∧
     completeArticle sessFailedRegen ≠
       assembleArticleSpec "T" sessFailedRegen.h2Contents) := by decide

/-- C1 (amended): with headings fetched, `completeArticle` equals the H1 line
followed by one `"## {heading}\n\n{content}"` block for every section that
has completed a successful generation (`isGenerated` flag) and stores
non-empty content — independently of its current four-valued status — in
index order, joined by blank lines. -/
theorem completeArticle_amended (s : SessionState) (hr : HeadingsGenerationResponse)
    (hhr : s.headingsResponse = some hr) :
    completeArticle s = assembleArticleAmended hr.seo_content.h1_heading s.h2Contents := by
  unfold completeArticle assembleArticleAmended
  rw [hhr]
  exact joinSep_eq_foldl "\n\n" _ _

/-- Witness for C1 (amended) at a concrete session. -/
theorem completeArticle_amended_witness :
    completeArticle sessFix = assembleArticleAmended "T" sessFix.h2Contents ∧
    completeArticle sessFix = "# T\n\n## done\n\ntext" :=
  ⟨completeArticle_amended sessFix hrFix rfl, by decide⟩

/-! ## Claim C6 — slug algorithm -/

/-- Counterexample for C6 as stated: the source strip stage keeps every `\w`
character, so the underscore of `"a_b"` survives and is turned into a hyphen
by the run-collapsing stage, whereas the spec's strip stage (not a-z, 0-9,
whitespace or hyphen is removed) deletes it. -/
theorem createSlug_spec_counterexample :
    createSlug ['a', '_', 'b'] = ['a', '-', 'b'] ∧
    slugifySpec ['a', '_', 'b'] = ['a', 'b'] ∧
    createSlug ['a', '_', 'b'] ≠ slugifySpec ['a', '_', 'b'] := by decide

/-- C6 (amended): `createSlug` lowercases, strips every character that is not
a `\w` character (a-z, A-Z, 0-9, underscore), whitespace, or hyphen, collapses
each run of whitespace/underscores/hyphens into a single hyphen, and trims
edge hyphens; the claim's concrete examples all hold. -/
theorem createSlug_amended (title : List Char) :
    createSlug title = slugifyAmended title ∧
    createSlugStr "Hello, World!" = "hello-world" ∧
    createSlugStr "  ---Already-Slug---  " = "already-slug" ∧
    createSlugStr "" = "" ∧
    createSlugStr "?!*" = "" :=
  ⟨rfl, by decide, by decide, rfl, by decide⟩

/-! ## Claim C4 — single-section failure frame -/

/-- C4: when the single-section call for a valid index `i` fails, section `i`
ends with its two in-flight/err updates composed — `isGenerating` cleared and
the error message stored, which is the `failed` status — and every other
section's entry (hence its status, content and word count) is unchanged. -/
theorem generateSection_failure_frame (s : SessionState) (i : Nat) (msg : String)
    (hguard : s.generationInProgressRef = false)
    (hhr : s.headingsResponse.isSome = true)
    (hi : i < s.h2Contents.length) :
    (∀ old, s.h2Contents.get? i = some old →
        (generateH2Content (Except.error msg) i s).1.h2Contents.get? i =
            some { old with isGenerating := false, error := some msg } ∧
        sectionStatus { old with isGenerating := false, error := some msg } =
            SectionStatus.failed) ∧
    (∀ j, j ≠ i →
        (generateH2Content (Except.error msg) i s).1.h2Contents.get? j =
          s.h2Contents.get? j) := by
  obtain ⟨hr, hhr'⟩ := Option.isSome_iff_exists.mp hhr
  unfold generateH2Content
  simp only [hguard, Bool.false_eq_true, if_false, hhr', hi, if_true, if_pos hi]
  constructor
  · intro old hold
    constructor
    · rw [get?_updSection_self, get?_updSection_self, hold]
      rfl
    · rfl
  · intro j hj
    rw [get?_updSection_other _ _ _ _ hj, get?_updSection_other _ _ _ _ hj]

/-- Witness for C4: failing the call for index 1 of the fixture session. -/
theorem generateSection_failure_frame_witness :
    (generateH2Content (Except.error "boom") 1 sessFix).1.h2Contents.get? 1 =
        some { secPending with isGenerating := false, error := some "boom" } ∧
    (generateH2Content (Except.error "boom") 1 sessFix).1.h2Contents.get? 0 =
        some secDone :=
  ⟨(((generateSection_failure_frame sessFix 1 "boom" rfl rfl (by decide)).1
      secPending (by decide)).1),
   ((generateSection_failure_frame sessFix 1 "boom" rfl rfl (by decide)).2 0
      (by decide))⟩

/-! ## Claim C2 — bulk run skips generated sections, in index order -/

theorem loopAll_trace (api : Nat → Except String GenResult) :
    ∀ (fuel i : Nat) (cur live : List H2ContentData),
      (∀ k ∈ (loopAll api fuel i cur live).2.1,
          i ≤ k ∧ ∃ h2, cur.get? k = some h2 ∧ h2.isGenerated = false) ∧
      List.Chain' (· < ·) (loopAll api fuel i cur live).2.1 := by
  intro fuel
  induction fuel with
  | zero => intro i cur live; exact ⟨fun k hk => absurd hk (List.not_mem_nil k), List.chain'_nil⟩
  | succ fuel ih =>
    intro i cur live
    unfold loopAll
    match hcur : cur.get? i with
    | none => exact ⟨fun k hk => absurd hk (List.not_mem_nil k), List.chain'_nil⟩
    | some entry =>
      by_cases hgen : entry.isGenerated
      · simp only [hgen, if_true]
        refine ⟨fun k hk => ?_, ((ih (i + 1) cur live)).2⟩
        have h := ((ih (i + 1) cur live)).1 k hk
        exact ⟨by omega, h.2⟩
      · simp only [hgen, Bool.false_eq_true, if_false]
        match hapi : api i with
        | Except.ok r =>
          constructor
          · intro k hk
            rcases List.mem_cons.mp hk with hk | hk
            · subst hk
              exact ⟨Nat.le_refl _, entry, hcur, Bool.of_not_eq_true hgen⟩
            · have h := (ih (i + 1) (updSection (applyResult r) i cur)
                (updSection (applyResult r) i (updSection markGenerating i live))).1 k hk
              refine ⟨by omega, ?_⟩
              obtain ⟨h2, hh2, hh2g⟩ := h.2
              refine ⟨h2, ?_, hh2g⟩
              rwa [get?_updSection_other _ _ _ _ (by omega)] at hh2
          · rw [List.chain'_cons']
            constructor
            · intro y hy
              have hym := List.mem_of_mem_head? hy
              have h := (ih (i + 1) (updSection (applyResult r) i cur)
                (updSection (applyResult r) i (updSection markGenerating i live))).1 y hym
              omega
            · exact (ih (i + 1) _ _).2
        | Except.error msg =>
          constructor
          · intro k hk
            have : k = i := by simpa using hk
            subst this
            exact ⟨Nat.le_refl k, entry, hcur, Bool.of_not_eq_true hgen⟩
          · exact List.chain'_singleton _

/-- C2: (a) a bulk run on a session whose sections are all generated issues
zero generation calls; (b) every call a bulk run issues targets a section
that was not in `generated` status in the pre-state snapshot; (c) the called
indices are strictly increasing, i.e. remaining sections are visited in index
order. -/
theorem generateAll_skip_and_order (api : Nat → Except String GenResult) (s : SessionState) :
    (s.h2Contents.all (fun h2 => h2.isGenerated) = true →
        (generateAllH2Contents api s).2 = []) ∧
    (∀ i ∈ (generateAllH2Contents api s).2,
        ∃ h2, s.h2Contents.get? i = some h2 ∧ h2.isGenerated = false) ∧
    List.Chain' (· < ·) (generateAllH2Contents api s).2 := by
  unfold generateAllH2Contents
  by_cases hguard : (s.isGeneratingAllRef || s.isGeneratingAll || s.generationInProgressRef) = true
  · simp only [hguard, if_true]
    exact ⟨fun _ => by trivial, fun i hi => absurd hi (List.not_mem_nil i), List.chain'_nil⟩
  · simp only [Bool.not_eq_true] at hguard
    simp only [hguard, Bool.false_eq_true, if_false]
    match hhr : s.headingsResponse with
    | none =>
      exact ⟨fun _ => by trivial, fun i hi => absurd hi (List.not_mem_nil i), List.chain'_nil⟩
    | some hr =>
      by_cases hall : s.h2Contents.all (fun h2 => h2.isGenerated) = true
      · simp only [hall, if_true]
        exact ⟨fun _ => by trivial, fun i hi => absurd hi (List.not_mem_nil i), List.chain'_nil⟩
      · simp only [hall, Bool.false_eq_true, if_false]
        have h := loopAll_trace api s.h2Contents.length 0 s.h2Contents s.h2Contents
        constructor
        · intro hc; exact hc.elim
        · constructor
          · intro i hi
            split at hi <;> exact (h.1 i hi).2
          · split <;> exact h.2

/-- Witness for C2: a second bulk run on the fully generated fixture issues
no generation call. -/
theorem generateAll_skip_and_order_witness :
    (generateAllH2Contents apiAllOk sessAllDone).2 = [] :=
  (generateAll_skip_and_order apiAllOk sessAllDone).1 (by decide)

/-! ## Claim C3 — bulk run aborts on the first failure -/

theorem loopAll_failure_spec (api : Nat → Except String GenResult) (msg : String) :
    ∀ (fuel i tgt : Nat) (cur live : List H2ContentData),
      cur.length ≤ fuel + i →
      live.length = cur.length →
      (∀ j, i ≤ j → cur.get? j = live.get? j) →
      i ≤ tgt →
      tgt < cur.length →
      (∀ h2, cur.get? tgt = some h2 → h2.isGenerated = false) →
      api tgt = Except.error msg →
      (∀ j, i ≤ j → j < tgt → ∀ h2, cur.get? j = some h2 → h2.isGenerated = false →
          ∃ r, api j = Except.ok r) →
      (loopAll api fuel i cur live).2.2 = false ∧
      (∀ k ∈ (loopAll api fuel i cur live).2.1, k ≤ tgt) ∧
      (∀ h2, cur.get? tgt = some h2 →
          (loopAll api fuel i cur live).1.get? tgt =
            some (markFailed msg (markGenerating h2))) ∧
      (∀ j, i ≤ j → j < tgt → ∀ h2, cur.get? j = some h2 →
          (h2.isGenerated = true →
              (loopAll api fuel i cur live).1.get? j = live.get? j) ∧
          (h2.isGenerated = false →
              ∃ r, api j = Except.ok r ∧
                (loopAll api fuel i cur live).1.get? j =
                  some (applyResult r (markGenerating h2)))) ∧
      (∀ j, j < i ∨ tgt < j → (loopAll api fuel i cur live).1.get? j = live.get? j) := by
  intro fuel
  induction fuel with
  | zero =>
    intro i tgt cur live hfuel hlen hagree hle htlt hnotgen hfail hok
    omega
  | succ fuel ih =>
    intro i tgt cur live hfuel hlen hagree hle htlt hnotgen hfail hok
    obtain ⟨entry, hcur⟩ : ∃ e, cur.get? i = some e := by
      cases h : cur.get? i with
      | none => exact absurd (List.get?_eq_none.mp h) (by omega)
      | some e => exact ⟨e, rfl⟩
    by_cases hgen : entry.isGenerated = true
    · have hit : i < tgt := by
        rcases Nat.lt_or_ge i tgt with h | h
        · exact h
        · have : i = tgt := by omega
          subst this
          exact absurd hgen (by simp [hnotgen entry hcur])
      have step :
          loopAll api (fuel + 1) i cur live = loopAll api fuel (i + 1) cur live := by
        simp only [loopAll, hcur, hgen, if_true]
      rw [step]
      have hres := ih (i + 1) tgt cur live (by omega) hlen
        (fun j hj => hagree j (by omega)) (by omega) htlt hnotgen hfail
        (fun j hj1 hj2 => hok j (by omega) hj2)
      refine ⟨hres.1, hres.2.1, hres.2.2.1, ?_, ?_⟩
      · intro j hij hjt h2 hh2
        rcases Nat.lt_or_ge i j with hij' | hij'
        · exact hres.2.2.2.1 j (by omega) hjt h2 hh2
        · have : j = i := by omega
          subst this
          have : h2 = entry := by rw [hcur] at hh2; exact (Option.some.inj hh2).symm
          subst this
          constructor
          · intro _
            exact hres.2.2.2.2 j (Or.inl (by omega))
          · intro hfalse
            exact absurd hgen (by simp [hfalse])
      · intro j hj
        exact hres.2.2.2.2 j (by omega)
    · by_cases hit : i = tgt
      · subst hit
        have step :
            loopAll api (fuel + 1) i cur live =
              (updSection (markFailed msg) i (updSection markGenerating i live),
                [i], false) := by
          simp only [loopAll, hcur, hgen, Bool.false_eq_true, if_false, hfail]
        rw [step]
        refine ⟨rfl, ?_, ?_, ?_, ?_⟩
        · intro k hk
          have : k = i := by simpa using hk
          omega
        · intro h2 hh2
          have : h2 = entry := by rw [hcur] at hh2; exact (Option.some.inj hh2).symm
          subst this
          rw [get?_updSection_self, get?_updSection_self, ← hagree i (Nat.le_refl i), hcur]
          rfl
        · intro j hij hjt
          omega
        · intro j hj
          have hne : j ≠ i := by omega
          rw [get?_updSection_other _ _ _ _ hne, get?_updSection_other _ _ _ _ hne]
      · have hit' : i < tgt := by omega
        obtain ⟨r, hr⟩ := hok i (Nat.le_refl i) hit' entry hcur (Bool.of_not_eq_true hgen)
        have step :
            loopAll api (fuel + 1) i cur live =
              ((loopAll api fuel (i + 1) (updSection (applyResult r) i cur)
                  (updSection (applyResult r) i (updSection markGenerating i live))).1,
                i :: (loopAll api fuel (i + 1) (updSection (applyResult r) i cur)
                  (updSection (applyResult r) i (updSection markGenerating i live))).2.1,
                (loopAll api fuel (i + 1) (updSection (applyResult r) i cur)
                  (updSection (applyResult r) i (updSection markGenerating i live))).2.2) := by
          simp only [loopAll, hcur, hgen, Bool.false_eq_true, if_false, hr]
        rw [step]
        have hres := ih (i + 1) tgt (updSection (applyResult r) i cur)
          (updSection (applyResult r) i (updSection markGenerating i live))
          (by rw [updSection_length]; omega)
          (by rw [updSection_length, updSection_length, updSection_length]; exact hlen)
          (by
            intro j hj
            have hne : j ≠ i := by omega
            rw [get?_updSection_other _ _ _ _ hne, get?_updSection_other _ _ _ _ hne,
              get?_updSection_other _ _ _ _ hne]
            exact hagree j (by omega))
          (by omega)
          (by rw [updSection_length]; exact htlt)
          (by
            intro h2 hh2
            rw [get?_updSection_other _ _ _ _ (by omega)] at hh2
            exact hnotgen h2 hh2)
          hfail
          (by
            intro j hj1 hj2 h2 hh2 hh2g
            rw [get?_updSection_other _ _ _ _ (by omega)] at hh2
            exact hok j (by omega) hj2 h2 hh2 hh2g)
        refine ⟨hres.1, ?_, ?_, ?_, ?_⟩
        · intro k hk
          rcases List.mem_cons.mp hk with hk | hk
          · omega
          · exact hres.2.1 k hk
        · intro h2 hh2
          refine hres.2.2.1 h2 ?_
          rw [get?_updSection_other _ _ _ _ (by omega)]
          exact hh2
        · intro j hij hjt h2 hh2
          rcases Nat.lt_or_ge i j with hij' | hij'
          · have hres' := hres.2.2.2.1 j (by omega) hjt h2
              (by rw [get?_updSection_other _ _ _ _ (by omega)]; exact hh2)
            constructor
            · intro hg
              rw [hres'.1 hg, get?_updSection_other _ _ _ _ (by omega),
                get?_updSection_other _ _ _ _ (by omega)]
            · exact hres'.2
          · have : j = i := by omega
            subst this
            have : h2 = entry := by rw [hcur] at hh2; exact (Option.some.inj hh2).symm
            subst this
            constructor
            · intro hg
              exact absurd hg hgen
            · intro _
              refine ⟨r, hr, ?_⟩
              rw [hres.2.2.2.2 j (Or.inl (by omega)), get?_updSection_self,
                get?_updSection_self, ← hagree j (Nat.le_refl j), hcur]
              rfl
        · intro j hj
          have hne : j ≠ i := by omega
          rw [hres.2.2.2.2 j (by omega), get?_updSection_other _ _ _ _ hne,
            get?_updSection_other _ _ _ _ hne]

/-- C3: if during a bulk run the call for the first not-yet-generated failing
section `i` errors (all earlier pending sections succeed), the run aborts: no
call targets any section after `i`, the generic bulk-failure message is set,
section `i` carries its error with `isGenerating` cleared, every section that
was already generated keeps its entry, and every section completed during the
run before `i` is `generated` with the content of its successful response. -/
theorem generateAll_abort_on_failure (api : Nat → Except String GenResult)
    (s : SessionState) (i : Nat) (msg : String) (hr : HeadingsGenerationResponse)
    (hflag1 : s.isGeneratingAllRef = false)
    (hflag2 : s.isGeneratingAll = false)
    (hflag3 : s.generationInProgressRef = false)
    (hhr : s.headingsResponse = some hr)
    (hi : i < s.h2Contents.length)
    (hnotgen : ∀ h2, s.h2Contents.get? i = some h2 → h2.isGenerated = false)
    (hfail : api i = Except.error msg)
    (hbefore : ∀ j, j < i → ∀ h2, s.h2Contents.get? j = some h2 →
        h2.isGenerated = false → ∃ r, api j = Except.ok r) :
    (∀ k ∈ (generateAllH2Contents api s).2, k ≤ i) ∧
    (generateAllH2Contents api s).1.error = some bulkFailureMsg ∧
    (∀ h2, s.h2Contents.get? i = some h2 →
        (generateAllH2Contents api s).1.h2Contents.get? i =
          some { h2 with isGenerating := false, error := some msg }) ∧
    (∀ j h2, s.h2Contents.get? j = some h2 → h2.isGenerated = true →
        (generateAllH2Contents api s).1.h2Contents.get? j = some h2) ∧
    (∀ j, j < i → ∀ h2, s.h2Contents.get? j = some h2 → h2.isGenerated = false →
        ∃ r, api j = Except.ok r ∧
          (generateAllH2Contents api s).1.h2Contents.get? j =
            some (applyResult r (markGenerating h2))) := by
  have hnall : s.h2Contents.all (fun h2 => h2.isGenerated) = false := by
    obtain ⟨h2, hh2⟩ : ∃ h2, s.h2Contents.get? i = some h2 := ⟨_, List.get?_eq_get hi⟩
    rw [Bool.eq_false_iff]
    intro hall
    exact absurd (List.all_eq_true.mp hall h2 (List.get?_mem hh2))
      (by simp [hnotgen h2 hh2])
  have hspec := loopAll_failure_spec api msg s.h2Contents.length 0 i
    s.h2Contents s.h2Contents (by omega) rfl (fun j _ => rfl) (by omega) hi
    hnotgen hfail (fun j _ hj2 => hbefore j hj2)
  have step :
      generateAllH2Contents api s =
        ({ s with
            h2Contents := (loopAll api s.h2Contents.length 0 s.h2Contents s.h2Contents).1,
            error := some bulkFailureMsg },
          (loopAll api s.h2Contents.length 0 s.h2Contents s.h2Contents).2.1) := by
    unfold generateAllH2Contents
    rw [hflag1, hflag2, hflag3, hhr]
    simp only [Bool.or_self, Bool.false_eq_true, if_false, hnall, hspec.1]
  rw [step]
  refine ⟨hspec.2.1, rfl, ?_, ?_, ?_⟩
  · intro h2 hh2
    exact hspec.2.2.1 h2 hh2
  · intro j h2 hh2 hgen
    rcases Nat.lt_or_ge j i with hj | hj
    · rw [(hspec.2.2.2.1 j (by omega) hj h2 hh2).1 hgen, hh2]
    · rcases Nat.lt_or_ge i j with hj' | hj'
      · rw [hspec.2.2.2.2 j (Or.inr hj'), hh2]
      · have : j = i := by omega
        subst this
        exact absurd hgen (by simp [hnotgen h2 hh2])
  · intro j hj h2 hh2 hgen
    obtain ⟨r, hrok, hrst⟩ := (hspec.2.2.2.1 j (by omega) hj h2 hh2).2 hgen
    exact ⟨r, hrok, hrst⟩

/-- An oracle that fails on section 1 and succeeds elsewhere. -/
def apiFail1 : Nat → Except String GenResult :=
  fun i => if i = 1 then Except.error "boom"
           else Except.ok { generated_content := "body", word_count := 1 }

/-- Witness for C3: the fixture session bulk-run with a failure at index 1
sets the bulk message, marks section 1 with its error, and keeps the
generated section 0 intact. -/
theorem generateAll_abort_on_failure_witness :
    (generateAllH2Contents apiFail1 sessFix).1.error = some bulkFailureMsg ∧
    (generateAllH2Contents apiFail1 sessFix).1.h2Contents.get? 1 =
        some { secPending with isGenerating := false, error := some "boom" } ∧
    (generateAllH2Contents apiFail1 sessFix).1.h2Contents.get? 0 = some secDone := by
  have h := generateAll_abort_on_failure apiFail1 sessFix 1 "boom" hrFix rfl rfl rfl rfl
    (by decide)
    (by
      intro h2 hh2
      have h' : some secPending = some h2 := hh2
      cases Option.some.inj h'
      rfl)
    rfl
    (by
      intro j hj h2 hh2 hgen
      have hj0 : j = 0 := by omega
      subst hj0
      have h' : some secDone = some h2 := hh2
      cases Option.some.inj h'
      exact absurd hgen (by decide))
  exact ⟨h.2.1, h.2.2.1 secPending rfl, h.2.2.2.1 0 secDone rfl rfl⟩

/-! ## Claim C7 — idempotence of the slug function -/

theorem toLower_fixed_of_not_upper (d : Char)
    (hd : ¬(d.toNat ≥ 65 ∧ d.toNat ≤ 90)) : Char.toLower d = d := by
  show (if d.toNat ≥ 65 ∧ d.toNat ≤ 90 then Char.ofNat (d.toNat + 32) else d) = d
  rw [if_neg hd]

theorem toLower_toLower (c : Char) : Char.toLower (Char.toLower c) = Char.toLower c := by
  by_cases h : c.toNat ≥ 65 ∧ c.toNat ≤ 90
  · have h1 : c.toLower = Char.ofNat (c.toNat + 32) := by
      show (if c.toNat ≥ 65 ∧ c.toNat ≤ 90 then Char.ofNat (c.toNat + 32) else c) = _
      rw [if_pos h]
    have hv : Nat.isValidChar (c.toNat + 32) := Or.inl (by omega)
    have ht : (Char.ofNat (c.toNat + 32)).toNat = c.toNat + 32 := by
      simp only [Char.ofNat, dif_pos hv]
      rfl
    rw [h1, toLower_fixed_of_not_upper _ (by rw [ht]; omega)]
  · rw [toLower_fixed_of_not_upper c h]
    exact toLower_fixed_of_not_upper c h

/-- Adjacent-character invariant of the collapse output: two neighbouring
characters are never both collapsible. -/
def sepOk (a b : Char) : Prop :=
  isCollapsible a = false ∨ isCollapsible b = false

/-- Characters that can appear in a slug pipeline output: fixed by
lowercasing, kept by the strip stage, and the only collapsible one is the
hyphen itself. -/
def goodChar (c : Char) : Prop :=
  Char.toLower c = c ∧ isKept c = true ∧ (isCollapsible c = true → c = '-')

/-- Shape of a string on which every stage of `createSlug` is the
identity. -/
def Slugish (x : List Char) : Prop :=
  (∀ c ∈ x, goodChar c) ∧ List.Chain' sepOk x ∧
  (∀ c ∈ x.head?, (c == '-') = false) ∧
  (∀ c ∈ x.reverse.head?, (c == '-') = false)

theorem mem_of_mem_dropWhile (p : Char → Bool) {l : List Char} {c : Char}
    (hc : c ∈ l.dropWhile p) : c ∈ l :=
  List.Sublist.subset (List.dropWhile_sublist p) hc

theorem head_dropWhile_false (p : Char → Bool) :
    ∀ (l : List Char) (c : Char), (l.dropWhile p).head? = some c → p c = false := by
  intro l
  induction l with
  | nil => intro c hc; cases hc
  | cons d t ih =>
    intro c hc
    by_cases hd : p d = true
    · rw [List.dropWhile_cons, if_pos hd] at hc
      exact ih c hc
    · rw [List.dropWhile_cons, if_neg hd] at hc
      cases Option.some.inj hc
      exact Bool.of_not_eq_true hd

theorem dropWhile_eq_self_of_head (p : Char → Bool) (l : List Char)
    (h : ∀ c ∈ l.head?, p c = false) : l.dropWhile p = l := by
  cases l with
  | nil => rfl
  | cons d t =>
    have hd : p d = false := h d rfl
    rw [List.dropWhile_cons, if_neg (by simp [hd])]

theorem chain'_dropWhile (p : Char → Bool) :
    ∀ (l : List Char), List.Chain' sepOk l → List.Chain' sepOk (l.dropWhile p) := by
  intro l
  induction l with
  | nil => intro h; exact h
  | cons d t ih =>
    intro h
    by_cases hd : p d = true
    · rw [List.dropWhile_cons, if_pos hd]
      exact ih (List.chain'_cons'.mp h).2
    · rw [List.dropWhile_cons, if_neg hd]
      exact h

theorem chain'_reverse_of {l : List Char} (h : List.Chain' sepOk l) :
    List.Chain' sepOk l.reverse := by
  rw [List.chain'_reverse]
  exact List.Chain'.imp (fun a b hab => Or.symm hab) h

theorem collapseAux_mem :
    ∀ (l : List Char) (b : Bool) (c : Char), c ∈ collapseAux b l →
      c = '-' ∨ (c ∈ l ∧ isCollapsible c = false) := by
  intro l
  induction l with
  | nil => intro b c hc; cases hc
  | cons d t ih =>
    intro b c hc
    by_cases hd : isCollapsible d = true
    · cases b with
      | true =>
        rw [show collapseAux true (d :: t) = collapseAux true t by
          simp [collapseAux, hd]] at hc
        rcases ih true c hc with h | h
        · exact Or.inl h
        · exact Or.inr ⟨List.mem_cons_of_mem _ h.1, h.2⟩
      | false =>
        rw [show collapseAux false (d :: t) = '-' :: collapseAux true t by
          simp [collapseAux, hd]] at hc
        rcases List.mem_cons.mp hc with h | h
        · exact Or.inl h
        · rcases ih true c h with h2 | h2
          · exact Or.inl h2
          · exact Or.inr ⟨List.mem_cons_of_mem _ h2.1, h2.2⟩
    · rw [show collapseAux b (d :: t) = d :: collapseAux false t by
        simp [collapseAux, hd]] at hc
      rcases List.mem_cons.mp hc with h | h
      · subst h
        exact Or.inr ⟨List.mem_cons_self _ _, Bool.of_not_eq_true hd⟩
      · rcases ih false c h with h2 | h2
        · exact Or.inl h2
        · exact Or.inr ⟨List.mem_cons_of_mem _ h2.1, h2.2⟩

theorem collapseAux_true_head :
    ∀ (l : List Char) (c : Char), (collapseAux true l).head? = some c →
      isCollapsible c = false := by
  intro l
  induction l with
  | nil => intro c hc; cases hc
  | cons d t ih =>
    intro c hc
    by_cases hd : isCollapsible d = true
    · rw [show collapseAux true (d :: t) = collapseAux true t by
        simp [collapseAux, hd]] at hc
      exact ih c hc
    · rw [show collapseAux true (d :: t) = d :: collapseAux false t by
        simp [collapseAux, hd]] at hc
      cases Option.some.inj hc
      exact Bool.of_not_eq_true hd

theorem collapseAux_chain :
    ∀ (l : List Char) (b : Bool), List.Chain' sepOk (collapseAux b l) := by
  intro l
  induction l with
  | nil => intro b; exact List.chain'_nil
  | cons d t ih =>
    intro b
    by_cases hd : isCollapsible d = true
    · cases b with
      | true =>
        rw [show collapseAux true (d :: t) = collapseAux true t by
          simp [collapseAux, hd]]
        exact ih true
      | false =>
        rw [show collapseAux false (d :: t) = '-' :: collapseAux true t by
          simp [collapseAux, hd]]
        rw [List.chain'_cons']
        refine ⟨fun y hy => Or.inr (collapseAux_true_head t y hy), ih true⟩
    · rw [show collapseAux b (d :: t) = d :: collapseAux false t by
        simp [collapseAux, hd]]
      rw [List.chain'_cons']
      refine ⟨fun y _ => Or.inl (Bool.of_not_eq_true hd), ih false⟩

theorem collapseAux_true_eq_false (t : List Char)
    (h : ∀ c ∈ t.head?, isCollapsible c = false) :
    collapseAux true t = collapseAux false t := by
  cases t with
  | nil => rfl
  | cons d r =>
    have hd : isCollapsible d = false := h d rfl
    simp [collapseAux, hd]

theorem collapseAux_eq_self :
    ∀ (l : List Char), (∀ c ∈ l, isCollapsible c = true → c = '-') →
      List.Chain' sepOk l → collapseAux false l = l := by
  intro l
  induction l with
  | nil => intro _ _; rfl
  | cons d t ih =>
    intro hall hchain
    have htail := (List.chain'_cons'.mp hchain).2
    have hrest : ∀ c ∈ t, isCollapsible c = true → c = '-' :=
      fun c hc => hall c (List.mem_cons_of_mem _ hc)
    by_cases hd : isCollapsible d = true
    · have hd' : d = '-' := hall d (List.mem_cons_self _ _) hd
      have hhead : ∀ c ∈ t.head?, isCollapsible c = false := by
        intro c hc
        rcases (List.chain'_cons'.mp hchain).1 c hc with h | h
        · rw [hd] at h; cases h
        · exact h
      rw [show collapseAux false (d :: t) = '-' :: collapseAux true t by
        simp [collapseAux, hd]]
      rw [collapseAux_true_eq_false t hhead, ih hrest htail, hd']
    · rw [show collapseAux false (d :: t) = d :: collapseAux false t by
        simp [collapseAux, hd]]
      rw [ih hrest htail]

theorem map_toLower_eq_self (l : List Char) (h : ∀ c ∈ l, Char.toLower c = c) :
    l.map Char.toLower = l := by
  induction l with
  | nil => rfl
  | cons d t ih =>
    rw [List.map_cons, h d (List.mem_cons_self _ _),
      ih (fun c hc => h c (List.mem_cons_of_mem _ hc))]

theorem createSlug_slugish (l : List Char) : Slugish (createSlug l) := by
  set m := (l.map Char.toLower).filter isKept with hm
  have hzgood : ∀ c ∈ collapseRuns m, goodChar c := by
    intro c hc
    rcases collapseAux_mem m false c hc with rfl | ⟨hcm, hcoll⟩
    · exact ⟨by decide, by decide, fun _ => rfl⟩
    · have hkept : isKept c = true := (List.mem_filter.mp hcm).2
      have hmem : c ∈ l.map Char.toLower := (List.mem_filter.mp hcm).1
      obtain ⟨d, _, hd⟩ := List.mem_map.mp hmem
      refine ⟨?_, hkept, fun h => absurd h (by simp [hcoll])⟩
      rw [← hd, toLower_toLower]
  have hzchain : List.Chain' sepOk (collapseRuns m) := collapseAux_chain m false
  set z := collapseRuns m with hz
  set y := z.dropWhile (fun c => c == '-') with hy
  set w := y.reverse.dropWhile (fun c => c == '-') with hw
  have hcs : createSlug l = w.reverse := rfl
  have hymem : ∀ c ∈ y, c ∈ z := fun c hc => mem_of_mem_dropWhile _ hc
  have hwmem : ∀ c ∈ w, c ∈ z := by
    intro c hc
    exact hymem c (List.mem_reverse.mp (mem_of_mem_dropWhile _ hc))
  have hychain : List.Chain' sepOk y := chain'_dropWhile _ z hzchain
  have hdecomp : y = w.reverse ++ (y.reverse.takeWhile (fun c => c == '-')).reverse := by
    rw [← List.reverse_append, List.takeWhile_append_dropWhile, List.reverse_reverse]
  refine ⟨?_, ?_, ?_, ?_⟩
  · intro c hc
    rw [hcs] at hc
    exact hzgood c (hwmem c (List.mem_reverse.mp hc))
  · rw [hcs]
    exact chain'_reverse_of (chain'_dropWhile _ _ (chain'_reverse_of hychain))
  · intro c hc
    rw [hcs] at hc
    have hc' : w.reverse.head? = some c := hc
    have hyhead : y.head? = some c := by
      rw [hdecomp, List.head?_append, hc']
      rfl
    exact head_dropWhile_false _ z c hyhead
  · intro c hc
    rw [hcs, List.reverse_reverse] at hc
    exact head_dropWhile_false _ y.reverse c hc

theorem slugish_fixedpoint (x : List Char) (hx : Slugish x) : createSlug x = x := by
  obtain ⟨hgood, hchain, hhead, hlast⟩ := hx
  have hmap : x.map Char.toLower = x :=
    map_toLower_eq_self x (fun c hc => (hgood c hc).1)
  have hfilter : x.filter isKept = x :=
    List.filter_eq_self.mpr (fun c hc => (hgood c hc).2.1)
  have hcollapse : collapseRuns x = x :=
    collapseAux_eq_self x (fun c hc h => (hgood c hc).2.2 h) hchain
  have htrim : trimHyphens x = x := by
    unfold trimHyphens
    rw [dropWhile_eq_self_of_head _ x hhead,
      dropWhile_eq_self_of_head _ x.reverse hlast, List.reverse_reverse]
  show trimHyphens (collapseRuns ((x.map Char.toLower).filter isKept)) = x
  rw [hmap, hfilter, hcollapse, htrim]

/-- C7: the slug function is idempotent — a second application of
`createSlug` to any of its outputs is the identity. -/
theorem createSlug_idempotent (x : List Char) :
    createSlug (createSlug x) = createSlug x :=
  slugish_fixedpoint (createSlug x) (createSlug_slugish x)

end ArticleGen

